import Mathlib

/-!
Verification development for `audio_to_face/modules/radnerfs/radnerf.py` (the
RADNeRF talking-face model of the AudioGPT repository).

The file gives a shallow embedding of the single source file.  Tensors are
lists of rows of real numbers; every torch operation that can fail with a
shape mismatch is embedded as an `Option`-valued operation that returns
`none` exactly when the shapes it requires do not hold.  The learned
sub-modules (AudioNet, AudioAttNet, MLP, the grid encoders of
`get_encoder`, and the `NeRFRenderer` base class) live outside the source
file; they are packaged as an opaque environment `Env` of constructor
functions keyed by exactly the arguments the source passes to them.
-/

/-- A row of a 2-D tensor: a vector of real entries. -/
abbrev Vec := List ℝ

/-- A 2-D tensor, stored as its list of rows (row-major). -/
abbrev Tsr := List Vec

/-- A 3-D tensor (a batch of 2-D tensors), the input type of the condition
prenet, whose docstring gives it shape [B, T, C]. -/
abbrev Tsr3 := List Tsr

/-- The predicate that a 2-D tensor has shape [n, d]: n rows, each of
length d. -/
def Shaped (t : Tsr) (n d : ℕ) : Prop :=
  t.length = n ∧ ∀ r ∈ t, r.length = d

/-- Embedding of `t.repeat(n, 1)` on a 2-D tensor: the list of rows is
tiled n times (for a [1, d] tensor this yields the [n, d] tensor whose
rows all equal the single row of t). -/
def repeatRows (t : Tsr) (n : ℕ) : Tsr :=
  (List.replicate n t).flatten

/-- Embedding of `torch.cat([a, b], dim=1)` (equivalently dim=-1 on 2-D
tensors): defined exactly when the row counts agree, in which case rows
are concatenated pointwise. -/
def cat1 (a b : Tsr) : Option Tsr :=
  if a.length = b.length then some (List.zipWith (fun r s => r ++ s) a b) else none

/-- Elementwise application of a scalar function to a 2-D tensor, the
embedding of `torch.tanh` / `torch.sigmoid` / `trunc_exp` on tensors. -/
def mapElems (f : ℝ → ℝ) (t : Tsr) : Tsr :=
  t.map (List.map f)

/-- Embedding of `h[..., 0]`: the first column of a 2-D tensor. -/
def col0 (t : Tsr) : Vec :=
  t.map List.headI

/-- Embedding of `h[..., 1:]`: all columns from the second on. -/
def colsFrom1 (t : Tsr) : Tsr :=
  t.map (List.drop 1)

/-- Modelled from the spec: `torch.sigmoid`, the logistic normalization the
spec names as enforcing the [0, 1] value range of colors. -/
noncomputable def sigmoid (x : ℝ) : ℝ :=
  1 / (1 + Real.exp (-x))

/-- Modelled from the spec: `trunc_exp` from
`audio_to_face/modules/radnerfs/utils` (not under src/) is an exponential
whose gradient is truncated; its forward value is the exponential. -/
noncomputable def trunc_exp (x : ℝ) : ℝ :=
  Real.exp x

/-- A row-wise neural network (an MLP of `cond_encoder`, or the
spherical-harmonics direction encoder): it declares the feature dimension
it accepts and the one it produces, and maps one row to one row. -/
structure RowNet where
  inDim : ℕ
  outDim : ℕ
  run : Vec → Vec

/-- Applying a row-wise network to a [N, inDim] tensor; a wrong feature
dimension is a shape error, embedded as `none`. -/
def RowNet.apply (f : RowNet) (t : Tsr) : Option Tsr :=
  if ∀ r ∈ t, r.length = f.inDim then some (t.map f.run) else none

/-- A row-wise network is well formed when it really produces rows of its
declared output dimension. -/
def RowNet.WF (f : RowNet) : Prop :=
  ∀ v, (f.run v).length = f.outDim

/-- A grid encoder as returned by `get_encoder` for the hashgrid/tilegrid
types: it is additionally parameterized by the `bound` argument the source
passes at call time. -/
structure GridEncoder where
  inDim : ℕ
  outDim : ℕ
  run : ℝ → Vec → Vec

/-- Applying a grid encoder to a [N, inDim] tensor at a given bound; a
wrong coordinate dimension is a shape error, embedded as `none`. -/
def GridEncoder.apply (e : GridEncoder) (t : Tsr) (bound : ℝ) : Option Tsr :=
  if ∀ r ∈ t, r.length = e.inDim then some (t.map (e.run bound)) else none

/-- A grid encoder is well formed when it really produces rows of its
declared output dimension, whatever the bound. -/
def GridEncoder.WF (e : GridEncoder) : Prop :=
  ∀ b v, (e.run b v).length = e.outDim

/-- The kinds of learned sub-modules the constructor assembles.  The
spherical-harmonics direction encoder is analytic and has no learned
parameters, so it is not recorded as a learned sub-module. -/
inductive ModuleKind where
  | audioNet
  | audioAttNet
  | gridEncoder
  | mlp
deriving DecidableEq

/-- The hyperparameter dictionary entries the constructor reads. -/
structure Hparams where
  cond_type : String
  cond_out_dim : ℕ
  cond_win_size : ℕ
  smo_win_size : ℕ
  with_att : Bool
  grid_type : String
  grid_interpolation_type : String
  log2_hashmap_size : ℕ
  desired_resolution : ℝ
  num_layers_ambient : ℕ
  hidden_dim_ambient : ℕ
  ambient_out_dim : ℕ
  num_layers_sigma : ℕ
  hidden_dim_sigma : ℕ
  geo_feat_dim : ℕ
  num_layers_color : ℕ
  hidden_dim_color : ℕ

/-- Modelled from the spec: the external collaborators of the source file
that are not under src/ — the `NeRFRenderer` base class (which provides
`self.bound` and `self.individual_embedding_dim`), the `AudioNet`,
`AudioAttNet` and `MLP` constructors of `cond_encoder`, and `get_encoder`
(which returns an encoder together with its output dimension).  Each is an
opaque constructor keyed by exactly the arguments the source passes. -/
structure Env where
  baseBound : Hparams → ℝ
  baseIndDim : Hparams → ℕ
  audioNet : (inDim outDim winSize : ℕ) → (Tsr3 → Tsr)
  audioAttNet : (inOutDim seqLen : ℕ) → (Tsr → Tsr)
  mkGridEncoder : (gridType : String) → (inputDim numLevels levelDim baseRes log2T : ℕ) →
      (desiredRes : ℝ) → (interp : String) → GridEncoder × ℕ
  shEncoder : RowNet × ℕ
  mkMLP : (dimIn dimOut dimHidden numLayers : ℕ) → RowNet

/-- Well-formedness of an environment: each constructed network accepts the
input dimension it was constructed for and produces the output dimension
it was constructed for (for `get_encoder`, the dimension it returns). -/
structure EnvWF (env : Env) : Prop where
  grid_in : ∀ g i nl ld br lt dr itp,
    ((env.mkGridEncoder g i nl ld br lt dr itp).1).inDim = i
  grid_out : ∀ g i nl ld br lt dr itp,
    ((env.mkGridEncoder g i nl ld br lt dr itp).1).outDim =
      (env.mkGridEncoder g i nl ld br lt dr itp).2
  grid_wf : ∀ g i nl ld br lt dr itp,
    GridEncoder.WF (env.mkGridEncoder g i nl ld br lt dr itp).1
  sh_in : env.shEncoder.1.inDim = 3
  sh_out : env.shEncoder.1.outDim = env.shEncoder.2
  sh_wf : RowNet.WF env.shEncoder.1
  mlp_in : ∀ a b c d, (env.mkMLP a b c d).inDim = a
  mlp_out : ∀ a b c d, (env.mkMLP a b c d).outDim = b
  mlp_wf : ∀ a b c d, RowNet.WF (env.mkMLP a b c d)

/-- The RADNeRF model: the attributes set by `RADNeRF.__init__` (`bound`
and `individual_embedding_dim` coming from the `NeRFRenderer` base class).
`cond_att_net` is only constructed when `with_att` holds, hence is an
`Option`.  `modules` records the learned sub-modules the constructor
assembled, in construction order. -/
structure RADNeRF where
  bound : ℝ
  individual_embedding_dim : ℕ
  cond_in_dim : ℕ
  cond_out_dim : ℕ
  cond_win_size : ℕ
  smo_win_size : ℕ
  cond_prenet : Tsr3 → Tsr
  with_att : Bool
  cond_att_net : Option (Tsr → Tsr)
  grid_type : String
  grid_interpolation_type : String
  position_embedder : GridEncoder
  position_embedding_dim : ℕ
  num_layers_ambient : ℕ
  hidden_dim_ambient : ℕ
  ambient_out_dim : ℕ
  ambient_net : RowNet
  ambient_embedder : GridEncoder
  ambient_embedding_dim : ℕ
  num_layers_sigma : ℕ
  hidden_dim_sigma : ℕ
  geo_feat_dim : ℕ
  sigma_net : RowNet
  num_layers_color : ℕ
  hidden_dim_color : ℕ
  direction_embedder : RowNet
  direction_embedding_dim : ℕ
  color_net : RowNet
  modules : List ModuleKind

/-- The body of `RADNeRF.__init__` after the condition-type dispatch has
produced `cond_in_dim` (source lines 23-59), given the external
collaborators `env`. -/
def mkModel (env : Env) (h : Hparams) (cond_in_dim : ℕ) : RADNeRF :=
  let bound := env.baseBound h
  let individual_embedding_dim := env.baseIndDim h
  let pos := env.mkGridEncoder h.grid_type 3 16 2 16 h.log2_hashmap_size
      (h.desired_resolution * bound) h.grid_interpolation_type
  let amb := env.mkGridEncoder h.grid_type h.ambient_out_dim 16 2 16 h.log2_hashmap_size
      h.desired_resolution h.grid_interpolation_type
  let sh := env.shEncoder
  { bound := bound
    individual_embedding_dim := individual_embedding_dim
    cond_in_dim := cond_in_dim
    cond_out_dim := h.cond_out_dim
    cond_win_size := h.cond_win_size
    smo_win_size := h.smo_win_size
    cond_prenet := env.audioNet cond_in_dim h.cond_out_dim h.cond_win_size
    with_att := h.with_att
    cond_att_net :=
      if h.with_att then some (env.audioAttNet h.cond_out_dim h.smo_win_size) else none
    grid_type := h.grid_type
    grid_interpolation_type := h.grid_interpolation_type
    position_embedder := pos.1
    position_embedding_dim := pos.2
    num_layers_ambient := h.num_layers_ambient
    hidden_dim_ambient := h.hidden_dim_ambient
    ambient_out_dim := h.ambient_out_dim
    ambient_net := env.mkMLP (pos.2 + h.cond_out_dim) h.ambient_out_dim
      h.hidden_dim_ambient h.num_layers_ambient
    ambient_embedder := amb.1
    ambient_embedding_dim := amb.2
    num_layers_sigma := h.num_layers_sigma
    hidden_dim_sigma := h.hidden_dim_sigma
    geo_feat_dim := h.geo_feat_dim
    sigma_net := env.mkMLP (pos.2 + amb.2) (1 + h.geo_feat_dim)
      h.hidden_dim_sigma h.num_layers_sigma
    num_layers_color := h.num_layers_color
    hidden_dim_color := h.hidden_dim_color
    direction_embedder := sh.1
    direction_embedding_dim := sh.2
    color_net := env.mkMLP (sh.2 + h.geo_feat_dim + individual_embedding_dim) 3
      h.hidden_dim_color h.num_layers_color
    modules := [ModuleKind.audioNet] ++
      (if h.with_att then [ModuleKind.audioAttNet] else []) ++
      [ModuleKind.gridEncoder, ModuleKind.mlp, ModuleKind.gridEncoder,
       ModuleKind.mlp, ModuleKind.mlp] }

/-- Embedding of `RADNeRF.__init__` (source lines 12-59): the
condition-type dispatch sets `cond_in_dim` to 44 for esperanto, 29 for
deepspeech and 68*3 for idexp_lm3d_normalized, and raises
`NotImplementedError` (embedded as `none`) for every other value. -/
def RADNeRF.init (env : Env) (h : Hparams) : Option RADNeRF :=
  (if h.cond_type = "esperanto" then some 44
   else if h.cond_type = "deepspeech" then some 29
   else if h.cond_type = "idexp_lm3d_normalized" then some (68 * 3)
   else none).map (mkModel env h)

/-- Embedding of `RADNeRF.cal_cond_feat` (source lines 61-71): the prenet
output, smoothed by the attention net when `with_att` holds.  Reading the
`cond_att_net` attribute when it was never constructed is an attribute
error, embedded as `none`. -/
def RADNeRF.cal_cond_feat (m : RADNeRF) (cond : Tsr3) : Option Tsr :=
  let cond_feat := m.cond_prenet cond
  if m.with_att then m.cond_att_net.map fun att => att cond_feat
  else some cond_feat

/-- Embedding of `RADNeRF.forward` (source lines 73-105).  The `.float()`
call on the ambient logits is a dtype cast, the identity in this
real-number model.  The result is the tuple (sigma, color, ambient_pos). -/
noncomputable def RADNeRF.forward (m : RADNeRF) (position direction cond_feat : Tsr)
    (individual_code : Option Tsr) : Option (Vec × Tsr × Tsr) := do
  let cond_feat := repeatRows cond_feat position.length
  let pos_feat ← GridEncoder.apply m.position_embedder position m.bound
  let ambient_inp ← cat1 pos_feat cond_feat
  let ambient_logit ← RowNet.apply m.ambient_net ambient_inp
  let ambient_pos := mapElems Real.tanh ambient_logit
  let ambient_feat ← GridEncoder.apply m.ambient_embedder ambient_pos 1
  let h ← cat1 pos_feat ambient_feat
  let h ← RowNet.apply m.sigma_net h
  let sigma := (col0 h).map trunc_exp
  let geo_feat := colsFrom1 h
  let direction_feat ← RowNet.apply m.direction_embedder direction
  let color_inp ← match individual_code with
    | some ic => do
        let t ← cat1 direction_feat geo_feat
        cat1 t (repeatRows ic position.length)
    | none => cat1 direction_feat geo_feat
  let color_logit ← RowNet.apply m.color_net color_inp
  return (sigma, mapElems sigmoid color_logit, ambient_pos)

/-- Embedding of `RADNeRF.density` (source lines 107-129); the unused
keyword argument `e=None` is dropped.  The result is the pair
(sigma, geo_feat) returned as a dict by the source. -/
noncomputable def RADNeRF.density (m : RADNeRF) (position cond_feat : Tsr) : Option (Vec × Tsr) := do
  let cond_feat := repeatRows cond_feat position.length
  let pos_feat ← GridEncoder.apply m.position_embedder position m.bound
  let ambient_inp ← cat1 pos_feat cond_feat
  let ambient_logit ← RowNet.apply m.ambient_net ambient_inp
  let ambient_pos := mapElems Real.tanh ambient_logit
  let ambient_feat ← GridEncoder.apply m.ambient_embedder ambient_pos 1
  let h ← cat1 pos_feat ambient_feat
  let h ← RowNet.apply m.sigma_net h
  return ((col0 h).map trunc_exp, colsFrom1 h)

/-- The pipeline shared verbatim by `forward` (lines 80-93) and `density`
(lines 111-124), returning the triple (sigma, geo_feat, ambient_pos).  It
takes only the position and the condition feature: neither the view
direction nor the individual code enters it. -/
noncomputable def RADNeRF.densityParts (m : RADNeRF) (position cond_feat : Tsr) :
    Option (Vec × Tsr × Tsr) := do
  let cond_feat := repeatRows cond_feat position.length
  let pos_feat ← GridEncoder.apply m.position_embedder position m.bound
  let ambient_inp ← cat1 pos_feat cond_feat
  let ambient_logit ← RowNet.apply m.ambient_net ambient_inp
  let ambient_pos := mapElems Real.tanh ambient_logit
  let ambient_feat ← GridEncoder.apply m.ambient_embedder ambient_pos 1
  let h ← cat1 pos_feat ambient_feat
  let h ← RowNet.apply m.sigma_net h
  return ((col0 h).map trunc_exp, colsFrom1 h, ambient_pos)

/-- The color stage of `forward` (lines 96-103), given the geometry
feature: direction encoding, optional individual code appended after
row-repetition, color network, sigmoid. -/
noncomputable def RADNeRF.colorStage (m : RADNeRF) (direction : Tsr) (n : ℕ)
    (individual_code : Option Tsr) (geo_feat : Tsr) : Option Tsr := do
  let direction_feat ← RowNet.apply m.direction_embedder direction
  let color_inp ← match individual_code with
    | some ic => do
        let t ← cat1 direction_feat geo_feat
        cat1 t (repeatRows ic n)
    | none => cat1 direction_feat geo_feat
  let color_logit ← RowNet.apply m.color_net color_inp
  return mapElems sigmoid color_logit


/-- A concrete stand-in network used to instantiate the opaque environment
on witnesses: it ignores its input and returns a zero row of the declared
output dimension. -/
noncomputable def zeroNet (i o : ℕ) : RowNet :=
  ⟨i, o, fun _ => List.replicate o (0 : ℝ)⟩

/-- A concrete stand-in grid encoder for witnesses, analogous to zeroNet. -/
noncomputable def zeroGrid (i o : ℕ) : GridEncoder :=
  ⟨i, o, fun _ _ => List.replicate o (0 : ℝ)⟩

/-- A concrete well-formed environment used to instantiate witnesses. -/
noncomputable def defaultEnv : Env :=
  { baseBound := fun _ => 1
    baseIndDim := fun _ => 0
    audioNet := fun _ o _ => fun _ => [List.replicate o (0 : ℝ)]
    audioAttNet := fun _ _ => fun t => t
    mkGridEncoder := fun _ i _ _ _ _ _ _ => (zeroGrid i 2, 2)
    shEncoder := (zeroNet 3 2, 2)
    mkMLP := fun a b _ _ => zeroNet a b }

/-- A concrete hyperparameter set with the esperanto condition type and the
attention smoother enabled, used to instantiate witnesses. -/
def hEsp : Hparams :=
  { cond_type := "esperanto", cond_out_dim := 1, cond_win_size := 1, smo_win_size := 1,
    with_att := true, grid_type := "tiledgrid", grid_interpolation_type := "linear",
    log2_hashmap_size := 16, desired_resolution := 1, num_layers_ambient := 1,
    hidden_dim_ambient := 1, ambient_out_dim := 1, num_layers_sigma := 1,
    hidden_dim_sigma := 1, geo_feat_dim := 1, num_layers_color := 1, hidden_dim_color := 1 }

/-- hEsp with the attention smoother disabled. -/
def hNoAtt : Hparams :=
  { hEsp with with_att := false }

/-- hEsp with a condition type the constructor does not implement. -/
def hBadCond : Hparams :=
  { hEsp with cond_type := "mfcc" }

/-- The model the constructor builds from defaultEnv and hEsp. -/
noncomputable def mDemo : RADNeRF :=
  mkModel defaultEnv hEsp 44

/-- The model the constructor builds from defaultEnv and hNoAtt. -/
noncomputable def mNoAttDemo : RADNeRF :=
  mkModel defaultEnv hNoAtt 44

/-- Row-tiling multiplies the row count. -/
theorem length_repeatRows (t : Tsr) (n : ℕ) : (repeatRows t n).length = n * t.length := by
  simp [repeatRows]

/-- Row-tiling preserves the length of every row. -/
theorem shaped_repeatRows {t : Tsr} {d : ℕ} (ht : ∀ r ∈ t, r.length = d) (n : ℕ) :
    Shaped (repeatRows t n) (n * t.length) d := by
  refine ⟨length_repeatRows t n, ?_⟩
  intro r hr
  have hrt : r ∈ t := by
    simp only [repeatRows, List.mem_flatten] at hr
    obtain ⟨l, hl, hrl⟩ := hr
    rw [List.eq_of_mem_replicate hl] at hrl
    exact hrl
  exact ht r hrt

/-- cat1 succeeds exactly on equal row counts. -/
theorem cat1_eq_some {a b : Tsr} (h : a.length = b.length) :
    cat1 a b = some (List.zipWith (fun r s => r ++ s) a b) := by
  simp [cat1, h]

/-- Concatenating rows pointwise adds the feature dimensions. -/
theorem shaped_zipWith_append (a : Tsr) :
    ∀ (b : Tsr) (n d₁ d₂ : ℕ), Shaped a n d₁ → Shaped b n d₂ →
      Shaped (List.zipWith (fun r s => r ++ s) a b) n (d₁ + d₂) := by
  induction a with
  | nil =>
    intro b n d₁ d₂ ha _
    have hn : n = 0 := by simpa using ha.1.symm
    subst hn
    exact ⟨by simp, by simp⟩
  | cons r a ih =>
    intro b n d₁ d₂ ha hb
    cases b with
    | nil => exact absurd (ha.1.trans hb.1.symm) (by simp)
    | cons s b =>
      have hn : n = a.length + 1 := by simpa using ha.1.symm
      subst hn
      have hblen : b.length = a.length := by simpa using hb.1
      have hind : Shaped (List.zipWith (fun r s => r ++ s) a b) a.length (d₁ + d₂) :=
        ih b a.length d₁ d₂ ⟨rfl, fun x hx => ha.2 x (List.mem_cons_of_mem _ hx)⟩
          ⟨hblen, fun x hx => hb.2 x (List.mem_cons_of_mem _ hx)⟩
      simp only [List.zipWith_cons_cons]
      constructor
      · simpa using hind.1
      · intro x hx
        rcases List.mem_cons.mp hx with hx | hx
        · subst hx
          rw [List.length_append, ha.2 r (List.mem_cons_self _ _),
            hb.2 s (List.mem_cons_self _ _)]
        · exact hind.2 x hx

/-- cat1 on two tensors with the same row count succeeds and adds the
feature dimensions. -/
theorem cat1_shaped {a b : Tsr} {n d₁ d₂ : ℕ} (ha : Shaped a n d₁) (hb : Shaped b n d₂) :
    cat1 a b = some (List.zipWith (fun r s => r ++ s) a b) ∧
      Shaped (List.zipWith (fun r s => r ++ s) a b) n (d₁ + d₂) :=
  ⟨cat1_eq_some (ha.1.trans hb.1.symm), shaped_zipWith_append a b n d₁ d₂ ha hb⟩

/-- A well-formed row network applied to a well-shaped tensor succeeds and
produces a well-shaped tensor. -/
theorem rowNet_apply_some {f : RowNet} {t : Tsr} {n : ℕ} (hwf : RowNet.WF f)
    (ht : Shaped t n f.inDim) :
    RowNet.apply f t = some (t.map f.run) ∧ Shaped (t.map f.run) n f.outDim := by
  refine ⟨by rw [RowNet.apply, if_pos ht.2], by simp [ht.1], ?_⟩
  intro r hr
  obtain ⟨v, hv, rfl⟩ := List.mem_map.mp hr
  exact hwf v

/-- A well-formed grid encoder applied to a well-shaped tensor succeeds and
produces a well-shaped tensor, whatever the bound. -/
theorem gridEncoder_apply_some {e : GridEncoder} {t : Tsr} {n : ℕ} (hwf : GridEncoder.WF e)
    (ht : Shaped t n e.inDim) (b : ℝ) :
    GridEncoder.apply e t b = some (t.map (e.run b)) ∧ Shaped (t.map (e.run b)) n e.outDim := by
  refine ⟨by rw [GridEncoder.apply, if_pos ht.2], by simp [ht.1], ?_⟩
  intro r hr
  obtain ⟨v, hv, rfl⟩ := List.mem_map.mp hr
  exact hwf b v

/-- Elementwise maps preserve the shape. -/
theorem shaped_mapElems (f : ℝ → ℝ) {t : Tsr} {n d : ℕ} (ht : Shaped t n d) :
    Shaped (mapElems f t) n d := by
  refine ⟨by simp [mapElems, ht.1], ?_⟩
  intro r hr
  obtain ⟨v, hv, rfl⟩ := List.mem_map.mp hr
  simp [ht.2 v hv]

/-- The first column has one entry per row. -/
theorem length_col0 (t : Tsr) : (col0 t).length = t.length := by
  simp [col0]

/-- Dropping the first column lowers the feature dimension by one. -/
theorem shaped_colsFrom1 {t : Tsr} {n d : ℕ} (ht : Shaped t n d) :
    Shaped (colsFrom1 t) n (d - 1) := by
  refine ⟨by simp [colsFrom1, ht.1], ?_⟩
  intro r hr
  obtain ⟨v, hv, rfl⟩ := List.mem_map.mp hr
  simp [ht.2 v hv]

/-- density is the projection of the shared pipeline to (sigma, geo_feat). -/
theorem density_eq_densityParts (m : RADNeRF) (p c : Tsr) :
    RADNeRF.density m p c =
      (RADNeRF.densityParts m p c).map (fun x => (x.1, x.2.1)) := by
  unfold RADNeRF.density RADNeRF.densityParts
  dsimp only []
  cases GridEncoder.apply m.position_embedder p m.bound with
  | none => rfl
  | some pos_feat =>
  simp only [Option.pure_def, Option.bind_eq_bind, Option.some_bind']
  cases cat1 pos_feat (repeatRows c p.length) with
  | none => rfl
  | some ambient_inp =>
  simp only [Option.pure_def, Option.bind_eq_bind, Option.some_bind']
  cases RowNet.apply m.ambient_net ambient_inp with
  | none => rfl
  | some ambient_logit =>
  simp only [Option.pure_def, Option.bind_eq_bind, Option.some_bind']
  cases GridEncoder.apply m.ambient_embedder (mapElems Real.tanh ambient_logit) 1 with
  | none => rfl
  | some ambient_feat =>
  simp only [Option.pure_def, Option.bind_eq_bind, Option.some_bind']
  cases cat1 pos_feat ambient_feat with
  | none => rfl
  | some hcat =>
  simp only [Option.pure_def, Option.bind_eq_bind, Option.some_bind']
  cases RowNet.apply m.sigma_net hcat with
  | none => rfl
  | some h2 => rfl

/-- forward factors through the shared pipeline followed by the color
stage; the pipeline sees neither the direction nor the individual code. -/
theorem forward_eq_factored (m : RADNeRF) (p d c : Tsr) (ic : Option Tsr) :
    RADNeRF.forward m p d c ic =
      (RADNeRF.densityParts m p c).bind fun x =>
        (RADNeRF.colorStage m d p.length ic x.2.1).map fun col => (x.1, col, x.2.2) := by
  unfold RADNeRF.forward RADNeRF.densityParts RADNeRF.colorStage
  dsimp only []
  cases GridEncoder.apply m.position_embedder p m.bound with
  | none => rfl
  | some pos_feat =>
  simp only [Option.pure_def, Option.bind_eq_bind, Option.some_bind']
  cases cat1 pos_feat (repeatRows c p.length) with
  | none => rfl
  | some ambient_inp =>
  simp only [Option.pure_def, Option.bind_eq_bind, Option.some_bind']
  cases RowNet.apply m.ambient_net ambient_inp with
  | none => rfl
  | some ambient_logit =>
  simp only [Option.pure_def, Option.bind_eq_bind, Option.some_bind']
  cases GridEncoder.apply m.ambient_embedder (mapElems Real.tanh ambient_logit) 1 with
  | none => rfl
  | some ambient_feat =>
  simp only [Option.pure_def, Option.bind_eq_bind, Option.some_bind']
  cases cat1 pos_feat ambient_feat with
  | none => rfl
  | some hcat =>
  simp only [Option.pure_def, Option.bind_eq_bind, Option.some_bind']
  cases RowNet.apply m.sigma_net hcat with
  | none => rfl
  | some h2 =>
  simp only [Option.pure_def, Option.bind_eq_bind, Option.some_bind']
  cases RowNet.apply m.direction_embedder d with
  | none => rfl
  | some direction_feat =>
  simp only [Option.pure_def, Option.bind_eq_bind, Option.some_bind']
  cases ic with
  | none =>
    cases cat1 direction_feat (colsFrom1 h2) with
    | none => rfl
    | some ci =>
    simp only [Option.pure_def, Option.bind_eq_bind, Option.some_bind']
    cases RowNet.apply m.color_net ci with
    | none => rfl
    | some cl => rfl
  | some icc =>
    cases cat1 direction_feat (colsFrom1 h2) with
    | none => rfl
    | some t0 =>
    simp only [Option.pure_def, Option.bind_eq_bind, Option.some_bind']
    cases cat1 t0 (repeatRows icc p.length) with
    | none => rfl
    | some ci =>
    simp only [Option.pure_def, Option.bind_eq_bind, Option.some_bind']
    cases RowNet.apply m.color_net ci with
    | none => rfl
    | some cl => rfl

/-- Inversion of the shared pipeline: a successful run produced its
ambient position by tanh from the ambient logits, looked it up in the
ambient grid encoder at bound 1, and produced sigma and geo_feat as the
truncated exponential of the first sigma-network channel and the remaining
channels. -/
theorem densityParts_inv {m : RADNeRF} {p c : Tsr} {out : Vec × Tsr × Tsr}
    (h : RADNeRF.densityParts m p c = some out) :
    (∃ logit, out.2.2 = mapElems Real.tanh logit) ∧
    (GridEncoder.apply m.ambient_embedder out.2.2 1).isSome = true ∧
    ∃ h2, out.1 = (col0 h2).map trunc_exp ∧ out.2.1 = colsFrom1 h2 := by
  unfold RADNeRF.densityParts at h
  dsimp only [] at h
  rcases hpf : GridEncoder.apply m.position_embedder p m.bound with _ | pos_feat
  · rw [hpf] at h; simp at h
  rw [hpf] at h
  simp only [Option.pure_def, Option.bind_eq_bind, Option.some_bind'] at h
  rcases hai : cat1 pos_feat (repeatRows c p.length) with _ | ambient_inp
  · rw [hai] at h; simp at h
  rw [hai] at h
  simp only [Option.pure_def, Option.bind_eq_bind, Option.some_bind'] at h
  rcases hal : RowNet.apply m.ambient_net ambient_inp with _ | ambient_logit
  · rw [hal] at h; simp at h
  rw [hal] at h
  simp only [Option.pure_def, Option.bind_eq_bind, Option.some_bind'] at h
  rcases haf : GridEncoder.apply m.ambient_embedder (mapElems Real.tanh ambient_logit) 1
    with _ | ambient_feat
  · rw [haf] at h; simp at h
  rw [haf] at h
  simp only [Option.pure_def, Option.bind_eq_bind, Option.some_bind'] at h
  rcases hct : cat1 pos_feat ambient_feat with _ | hcat
  · rw [hct] at h; simp at h
  rw [hct] at h
  simp only [Option.pure_def, Option.bind_eq_bind, Option.some_bind'] at h
  rcases hsg : RowNet.apply m.sigma_net hcat with _ | h2
  · rw [hsg] at h; simp at h
  rw [hsg] at h
  simp only [Option.pure_def, Option.bind_eq_bind, Option.some_bind'] at h
  have hout : out = ((col0 h2).map trunc_exp, colsFrom1 h2, mapElems Real.tanh ambient_logit) :=
    (Option.some.inj h).symm
  subst hout
  refine ⟨⟨ambient_logit, rfl⟩, ?_, ⟨h2, rfl, rfl⟩⟩
  rw [haf]
  rfl

/-- Inversion of the color stage: a successful run produced the color as
the sigmoid of the color network output. -/
theorem colorStage_inv {m : RADNeRF} {d : Tsr} {n : ℕ} {ic : Option Tsr} {geo col : Tsr}
    (h : RADNeRF.colorStage m d n ic geo = some col) :
    ∃ ci logit, RowNet.apply m.color_net ci = some logit ∧ col = mapElems sigmoid logit := by
  cases ic with
  | none =>
    unfold RADNeRF.colorStage at h
    dsimp only [] at h
    rcases hdf : RowNet.apply m.direction_embedder d with _ | direction_feat
    · rw [hdf] at h; simp at h
    rw [hdf] at h
    simp only [Option.pure_def, Option.bind_eq_bind, Option.some_bind'] at h
    rcases hci : cat1 direction_feat geo with _ | ci
    · rw [hci] at h; simp at h
    rw [hci] at h
    simp only [Option.pure_def, Option.bind_eq_bind, Option.some_bind'] at h
    rcases hcl : RowNet.apply m.color_net ci with _ | logit
    · rw [hcl] at h; simp at h
    rw [hcl] at h
    simp only [Option.pure_def, Option.bind_eq_bind, Option.some_bind'] at h
    exact ⟨ci, logit, hcl, (Option.some.inj h).symm⟩
  | some icc =>
    unfold RADNeRF.colorStage at h
    dsimp only [] at h
    rcases hdf : RowNet.apply m.direction_embedder d with _ | direction_feat
    · rw [hdf] at h; simp at h
    rw [hdf] at h
    simp only [Option.pure_def, Option.bind_eq_bind, Option.some_bind'] at h
    rcases ht0 : cat1 direction_feat geo with _ | t0
    · rw [ht0] at h; simp at h
    rw [ht0] at h
    simp only [Option.pure_def, Option.bind_eq_bind, Option.some_bind'] at h
    rcases hci : cat1 t0 (repeatRows icc n) with _ | ci
    · rw [hci] at h; simp at h
    rw [hci] at h
    simp only [Option.pure_def, Option.bind_eq_bind, Option.some_bind'] at h
    rcases hcl : RowNet.apply m.color_net ci with _ | logit
    · rw [hcl] at h; simp at h
    rw [hcl] at h
    simp only [Option.pure_def, Option.bind_eq_bind, Option.some_bind'] at h
    exact ⟨ci, logit, hcl, (Option.some.inj h).symm⟩

/-- The real hyperbolic tangent lies strictly between -1 and 1. -/
theorem tanh_mem_Ioo (x : ℝ) : -1 < Real.tanh x ∧ Real.tanh x < 1 := by
  have hc := Real.cosh_pos x
  constructor
  · rw [Real.tanh_eq_sinh_div_cosh, lt_div_iff₀ hc]
    have hs := Real.sinh_lt_cosh (-x)
    rw [Real.sinh_neg, Real.cosh_neg] at hs
    linarith
  · rw [Real.tanh_eq_sinh_div_cosh, div_lt_one hc]
    exact Real.sinh_lt_cosh x

/-- The logistic sigmoid lies strictly between 0 and 1. -/
theorem sigmoid_mem_Ioo (x : ℝ) : 0 < sigmoid x ∧ sigmoid x < 1 := by
  have he := Real.exp_pos (-x)
  constructor
  · exact div_pos one_pos (by linarith)
  · rw [sigmoid, div_lt_one (by linarith)]
    linarith

/-- defaultEnv is well formed. -/
theorem defaultEnv_wf : EnvWF defaultEnv := by
  constructor <;>
    intros <;>
    simp [defaultEnv, zeroNet, zeroGrid, RowNet.WF, GridEncoder.WF]

/-- Every model produced by the constructor is the dispatch body applied to
some condition input dimension. -/
theorem init_inv {env : Env} {hp : Hparams} {m : RADNeRF}
    (hm : RADNeRF.init env hp = some m) : ∃ k, m = mkModel env hp k := by
  unfold RADNeRF.init at hm
  split at hm
  · exact ⟨44, by simpa using hm.symm⟩
  · split at hm
    · exact ⟨29, by simpa using hm.symm⟩
    · split at hm
      · exact ⟨68 * 3, by simpa using hm.symm⟩
      · exact absurd hm (by simp)

/-- The constructor run on defaultEnv and hEsp yields mDemo. -/
theorem init_defaultEnv_hEsp : RADNeRF.init defaultEnv hEsp = some mDemo := rfl

/-- The constructor run on defaultEnv and hNoAtt yields mNoAttDemo. -/
theorem init_defaultEnv_hNoAtt : RADNeRF.init defaultEnv hNoAtt = some mNoAttDemo := rfl

/-- Under the dimension discipline the constructor establishes, the shared
pipeline succeeds on a [N, 3] position and a [1, dc] condition feature and
produces well-shaped outputs. -/
theorem densityParts_some_of_shaped {m : RADNeRF} {p c : Tsr} {N dc : ℕ}
    (h1 : GridEncoder.WF m.position_embedder) (h2 : m.position_embedder.inDim = 3)
    (h3 : RowNet.WF m.ambient_net)
    (h4 : m.ambient_net.inDim = m.position_embedder.outDim + dc)
    (h5 : GridEncoder.WF m.ambient_embedder)
    (h6 : m.ambient_embedder.inDim = m.ambient_net.outDim)
    (h7 : RowNet.WF m.sigma_net)
    (h8 : m.sigma_net.inDim = m.position_embedder.outDim + m.ambient_embedder.outDim)
    (hp3 : Shaped p N 3) (hc : Shaped c 1 dc) :
    ∃ σ g ap, RADNeRF.densityParts m p c = some (σ, g, ap) ∧
      σ.length = N ∧ Shaped g N (m.sigma_net.outDim - 1) ∧ Shaped ap N m.ambient_net.outDim := by
  have hcrep : Shaped (repeatRows c N) N dc := by
    have h := shaped_repeatRows hc.2 N
    rwa [hc.1, Nat.mul_one] at h
  have hpf := gridEncoder_apply_some h1 (by rw [h2]; exact hp3) m.bound
  have hcat := cat1_shaped hpf.2 hcrep
  have hal := rowNet_apply_some h3 (by rw [h4]; exact hcat.2)
  have hap := shaped_mapElems Real.tanh hal.2
  have haf := gridEncoder_apply_some h5 (by rw [h6]; exact hap) 1
  have hct := cat1_shaped hpf.2 haf.2
  have hsg := rowNet_apply_some h7 (by rw [h8]; exact hct.2)
  unfold RADNeRF.densityParts
  dsimp only []
  rw [hp3.1, hpf.1]
  simp only [Option.pure_def, Option.bind_eq_bind, Option.some_bind']
  rw [hcat.1]
  simp only [Option.pure_def, Option.bind_eq_bind, Option.some_bind']
  rw [hal.1]
  simp only [Option.pure_def, Option.bind_eq_bind, Option.some_bind']
  rw [haf.1]
  simp only [Option.pure_def, Option.bind_eq_bind, Option.some_bind']
  rw [hct.1]
  simp only [Option.pure_def, Option.bind_eq_bind, Option.some_bind']
  rw [hsg.1]
  simp only [Option.pure_def, Option.bind_eq_bind, Option.some_bind']
  refine ⟨_, _, _, rfl, ?_, shaped_colsFrom1 hsg.2, hap⟩
  rw [List.length_map, length_col0, hsg.2.1]

/-- Under the dimension discipline the constructor establishes, the color
stage succeeds: with no individual code when the color network expects no
individual channels, and with a [1, di] individual code when it expects di
extra channels. -/
theorem colorStage_some_of_shaped {m : RADNeRF} {d geo : Tsr} {N dg : ℕ} {ic : Option Tsr}
    (h1 : RowNet.WF m.direction_embedder) (h2 : m.direction_embedder.inDim = 3)
    (h3 : RowNet.WF m.color_net)
    (hd : Shaped d N 3) (hg : Shaped geo N dg)
    (hcase : (ic = none ∧ m.color_net.inDim = m.direction_embedder.outDim + dg) ∨
      (∃ code di, ic = some code ∧ Shaped code 1 di ∧
        m.color_net.inDim = m.direction_embedder.outDim + dg + di)) :
    (RADNeRF.colorStage m d N ic geo).isSome = true := by
  have hdf := rowNet_apply_some h1 (by rw [h2]; exact hd)
  rcases hcase with ⟨hnone, hdim⟩ | ⟨code, di, hsome, hcode, hdim⟩
  · subst hnone
    have hci := cat1_shaped hdf.2 hg
    have hcl := rowNet_apply_some h3 (by rw [hdim]; exact hci.2)
    unfold RADNeRF.colorStage
    dsimp only []
    rw [hdf.1]
    simp only [Option.pure_def, Option.bind_eq_bind, Option.some_bind']
    rw [hci.1]
    simp only [Option.pure_def, Option.bind_eq_bind, Option.some_bind']
    rw [hcl.1]
    simp only [Option.pure_def, Option.bind_eq_bind, Option.some_bind']
    rfl
  · subst hsome
    have hrep : Shaped (repeatRows code N) N di := by
      have h := shaped_repeatRows hcode.2 N
      rwa [hcode.1, Nat.mul_one] at h
    have ht0 := cat1_shaped hdf.2 hg
    have hci := cat1_shaped ht0.2 hrep
    have hcl := rowNet_apply_some h3 (by rw [hdim]; exact hci.2)
    unfold RADNeRF.colorStage
    dsimp only []
    rw [hdf.1]
    simp only [Option.pure_def, Option.bind_eq_bind, Option.some_bind']
    rw [ht0.1]
    simp only [Option.pure_def, Option.bind_eq_bind, Option.some_bind']
    rw [hci.1]
    simp only [Option.pure_def, Option.bind_eq_bind, Option.some_bind']
    rw [hcl.1]
    simp only [Option.pure_def, Option.bind_eq_bind, Option.some_bind']
    rfl

/-- C1: the sigma and geo_feat values returned by density equal the sigma
and geo_feat computed inside forward for the same position and cond_feat:
both are the projections of the shared pipeline densityParts, which takes
only the position and the condition feature, so the density pathway is an
exact sub-process of forward, independent of direction and individual
code. -/
theorem density_is_subprocess_of_forward (m : RADNeRF) (p d c : Tsr) (ic : Option Tsr) :
    (RADNeRF.density m p c = (RADNeRF.densityParts m p c).map (fun x => (x.1, x.2.1))) ∧
    (RADNeRF.forward m p d c ic =
      (RADNeRF.densityParts m p c).bind fun x =>
        (RADNeRF.colorStage m d p.length ic x.2.1).map fun col => (x.1, col, x.2.2)) ∧
    (∀ σ col ap, RADNeRF.forward m p d c ic = some (σ, col, ap) →
      ∃ g, RADNeRF.density m p c = some (σ, g) ∧
        RADNeRF.colorStage m d p.length ic g = some col) := by
  refine ⟨density_eq_densityParts m p c, forward_eq_factored m p d c ic, ?_⟩
  intro σ col ap hf
  rw [forward_eq_factored] at hf
  rcases Option.bind_eq_some.mp hf with ⟨x, hx, hcol⟩
  rcases Option.map_eq_some'.mp hcol with ⟨col', hcol', heq⟩
  simp only [Prod.mk.injEq] at heq
  obtain ⟨h1, h2, h3⟩ := heq
  refine ⟨x.2.1, ?_, ?_⟩
  · rw [density_eq_densityParts, hx, Option.map_some']
    rw [h1]
  · rw [hcol', h2]

/-- Witness for C1 at a concrete model and input. -/
theorem density_subprocess_witness :
    ∃ g, RADNeRF.density mDemo [[(0:ℝ),0,0]] [[(0:ℝ)]] = some ([trunc_exp 0], g) ∧
      RADNeRF.colorStage mDemo [[(0:ℝ),0,0]] 1 none g =
        some [[sigmoid 0, sigmoid 0, sigmoid 0]] :=
  (density_is_subprocess_of_forward mDemo [[0,0,0]] [[0,0,0]] [[0]] none).2.2
    [trunc_exp 0] [[sigmoid 0, sigmoid 0, sigmoid 0]] [[Real.tanh 0]] rfl

/-- C2: the ambient coordinate returned as the third component of forward
is tanh-normalized, so each of its entries lies in [-1, 1], and the
ambient grid encoder accepts it at bound 1. -/
theorem ambient_pos_tanh_range (m : RADNeRF) (p d c : Tsr) (ic : Option Tsr)
    (σ : Vec) (col ap : Tsr) (hf : RADNeRF.forward m p d c ic = some (σ, col, ap)) :
    (∀ r ∈ ap, ∀ x ∈ r, -1 ≤ x ∧ x ≤ 1) ∧
    (GridEncoder.apply m.ambient_embedder ap 1).isSome = true := by
  rw [forward_eq_factored] at hf
  rcases Option.bind_eq_some.mp hf with ⟨x, hx, hcol⟩
  rcases Option.map_eq_some'.mp hcol with ⟨col', hcol', heq⟩
  simp only [Prod.mk.injEq] at heq
  obtain ⟨h1, h2, h3⟩ := heq
  obtain ⟨⟨logit, hap⟩, hsome, -⟩ := densityParts_inv hx
  subst h3
  constructor
  · rw [hap]
    intro r hr y hy
    simp only [mapElems, List.mem_map] at hr
    obtain ⟨v, hv, rfl⟩ := hr
    obtain ⟨z, hz, rfl⟩ := List.mem_map.mp hy
    exact ⟨(tanh_mem_Ioo z).1.le, (tanh_mem_Ioo z).2.le⟩
  · exact hsome

/-- Witness for C2 at a concrete model and input. -/
theorem ambient_pos_tanh_range_witness :
    (∀ r ∈ [[Real.tanh 0]], ∀ x ∈ r, -1 ≤ x ∧ x ≤ 1) ∧
    (GridEncoder.apply mDemo.ambient_embedder [[Real.tanh 0]] 1).isSome = true :=
  ambient_pos_tanh_range mDemo [[0,0,0]] [[0,0,0]] [[0]] none
    [trunc_exp 0] [[sigmoid 0, sigmoid 0, sigmoid 0]] [[Real.tanh 0]] rfl

/-- C3: the color returned as the second component of forward is the
sigmoid of the color network output, so each of its entries lies in
[0, 1]. -/
theorem color_is_sigmoid_of_color_net (m : RADNeRF) (p d c : Tsr) (ic : Option Tsr)
    (σ : Vec) (col ap : Tsr) (hf : RADNeRF.forward m p d c ic = some (σ, col, ap)) :
    (∃ ci logit, RowNet.apply m.color_net ci = some logit ∧ col = mapElems sigmoid logit) ∧
    ∀ r ∈ col, ∀ x ∈ r, 0 ≤ x ∧ x ≤ 1 := by
  rw [forward_eq_factored] at hf
  rcases Option.bind_eq_some.mp hf with ⟨x, hx, hcol⟩
  rcases Option.map_eq_some'.mp hcol with ⟨col', hcol', heq⟩
  simp only [Prod.mk.injEq] at heq
  obtain ⟨h1, h2, h3⟩ := heq
  subst h2
  obtain ⟨ci, logit, hcl, hsig⟩ := colorStage_inv hcol'
  refine ⟨⟨ci, logit, hcl, hsig⟩, ?_⟩
  rw [hsig]
  intro r hr y hy
  simp only [mapElems, List.mem_map] at hr
  obtain ⟨v, hv, rfl⟩ := hr
  obtain ⟨z, hz, rfl⟩ := List.mem_map.mp hy
  exact ⟨(sigmoid_mem_Ioo z).1.le, (sigmoid_mem_Ioo z).2.le⟩

/-- Witness for C3 at a concrete model and input. -/
theorem color_sigmoid_witness :
    (∃ ci logit, RowNet.apply mDemo.color_net ci = some logit ∧
      [[sigmoid 0, sigmoid 0, sigmoid 0]] = mapElems sigmoid logit) ∧
    ∀ r ∈ [[sigmoid (0:ℝ), sigmoid 0, sigmoid 0]], ∀ x ∈ r, 0 ≤ x ∧ x ≤ 1 :=
  color_is_sigmoid_of_color_net mDemo [[0,0,0]] [[0,0,0]] [[0]] none
    [trunc_exp 0] [[sigmoid 0, sigmoid 0, sigmoid 0]] [[Real.tanh 0]] rfl

/-- C7: with the learned weights fixed (one model value), forward is a
deterministic function of its inputs. -/
theorem forward_deterministic (m : RADNeRF) (p₁ p₂ d₁ d₂ c₁ c₂ : Tsr) (ic₁ ic₂ : Option Tsr)
    (hp : p₁ = p₂) (hd : d₁ = d₂) (hc : c₁ = c₂) (hic : ic₁ = ic₂) :
    RADNeRF.forward m p₁ d₁ c₁ ic₁ = RADNeRF.forward m p₂ d₂ c₂ ic₂ := by
  rw [hp, hd, hc, hic]

/-- Witness for C7 at a concrete model and input. -/
theorem forward_deterministic_witness :
    RADNeRF.forward mDemo [[0,0,0]] [[0,0,0]] [[0]] none =
      RADNeRF.forward mDemo [[0,0,0]] [[0,0,0]] [[0]] none :=
  forward_deterministic mDemo [[0,0,0]] [[0,0,0]] [[0,0,0]] [[0,0,0]] [[0]] [[0]]
    none none rfl rfl rfl rfl

/-- C9: the sigma values returned by forward and by density are the
truncated exponential of the first sigma-network channel, hence strictly
positive. -/
theorem sigma_trunc_exp_positive (m : RADNeRF) (p d c : Tsr) (ic : Option Tsr) :
    (∀ σ col ap, RADNeRF.forward m p d c ic = some (σ, col, ap) →
      (∃ h2, σ = (col0 h2).map trunc_exp) ∧ ∀ x ∈ σ, 0 < x) ∧
    (∀ σ g, RADNeRF.density m p c = some (σ, g) →
      (∃ h2, σ = (col0 h2).map trunc_exp) ∧ ∀ x ∈ σ, 0 < x) := by
  constructor
  · intro σ col ap hf
    rw [forward_eq_factored] at hf
    rcases Option.bind_eq_some.mp hf with ⟨x, hx, hcol⟩
    rcases Option.map_eq_some'.mp hcol with ⟨col', hcol', heq⟩
    simp only [Prod.mk.injEq] at heq
    obtain ⟨h1, h2, h3⟩ := heq
    obtain ⟨-, -, h2t, hσ1, -⟩ := densityParts_inv hx
    subst h1
    refine ⟨⟨h2t, hσ1⟩, ?_⟩
    rw [hσ1]
    intro y hy
    obtain ⟨z, hz, rfl⟩ := List.mem_map.mp hy
    exact Real.exp_pos z
  · intro σ g hdens
    rw [density_eq_densityParts] at hdens
    rcases Option.map_eq_some'.mp hdens with ⟨x, hx, heq⟩
    simp only [Prod.mk.injEq] at heq
    obtain ⟨h1, h2⟩ := heq
    obtain ⟨-, -, h2t, hσ1, -⟩ := densityParts_inv hx
    subst h1
    refine ⟨⟨h2t, hσ1⟩, ?_⟩
    rw [hσ1]
    intro y hy
    obtain ⟨z, hz, rfl⟩ := List.mem_map.mp hy
    exact Real.exp_pos z

/-- Witness for C9 at a concrete model and input. -/
theorem sigma_trunc_exp_positive_witness :
    ((∃ h2, [trunc_exp (0:ℝ)] = (col0 h2).map trunc_exp) ∧
      ∀ x ∈ [trunc_exp (0:ℝ)], 0 < x) ∧
    ((∃ h2, [trunc_exp (0:ℝ)] = (col0 h2).map trunc_exp) ∧
      ∀ x ∈ [trunc_exp (0:ℝ)], 0 < x) :=
  ⟨(sigma_trunc_exp_positive mDemo [[0,0,0]] [[0,0,0]] [[0]] none).1
      [trunc_exp 0] [[sigmoid 0, sigmoid 0, sigmoid 0]] [[Real.tanh 0]] rfl,
   (sigma_trunc_exp_positive mDemo [[0,0,0]] [[0,0,0]] [[0]] none).2
      [trunc_exp 0] [[(0:ℝ)]] rfl⟩

/-- C10: forward accepts a missing individual code: with none the color
input is the concatenation of the direction encoding and the geometry
feature only, while a present individual code is repeated to N rows and
appended; forward factors through the corresponding color stage in both
cases. -/
theorem forward_individual_code_optional (m : RADNeRF) (p d c geo : Tsr) (n : ℕ) (icc : Tsr) :
    (RADNeRF.colorStage m d n none geo =
      (RowNet.apply m.direction_embedder d).bind fun df =>
        (cat1 df geo).bind fun ci =>
          (RowNet.apply m.color_net ci).map (mapElems sigmoid)) ∧
    (RADNeRF.colorStage m d n (some icc) geo =
      (RowNet.apply m.direction_embedder d).bind fun df =>
        (cat1 df geo).bind fun t =>
          (cat1 t (repeatRows icc n)).bind fun ci =>
            (RowNet.apply m.color_net ci).map (mapElems sigmoid)) ∧
    (RADNeRF.forward m p d c none =
      (RADNeRF.densityParts m p c).bind fun x =>
        (RADNeRF.colorStage m d p.length none x.2.1).map fun col => (x.1, col, x.2.2)) ∧
    (RADNeRF.forward m p d c (some icc) =
      (RADNeRF.densityParts m p c).bind fun x =>
        (RADNeRF.colorStage m d p.length (some icc) x.2.1).map fun col => (x.1, col, x.2.2)) := by
  refine ⟨?_, ?_, forward_eq_factored m p d c none, forward_eq_factored m p d c (some icc)⟩
  · unfold RADNeRF.colorStage
    dsimp only []
    cases RowNet.apply m.direction_embedder d with
    | none => rfl
    | some df =>
    simp only [Option.pure_def, Option.bind_eq_bind, Option.some_bind']
    cases cat1 df geo with
    | none => rfl
    | some ci =>
    simp only [Option.pure_def, Option.bind_eq_bind, Option.some_bind']
    cases RowNet.apply m.color_net ci with
    | none => rfl
    | some cl => rfl
  · unfold RADNeRF.colorStage
    dsimp only []
    cases RowNet.apply m.direction_embedder d with
    | none => rfl
    | some df =>
    simp only [Option.pure_def, Option.bind_eq_bind, Option.some_bind']
    cases cat1 df geo with
    | none => rfl
    | some t0 =>
    simp only [Option.pure_def, Option.bind_eq_bind, Option.some_bind']
    cases cat1 t0 (repeatRows icc n) with
    | none => rfl
    | some ci =>
    simp only [Option.pure_def, Option.bind_eq_bind, Option.some_bind']
    cases RowNet.apply m.color_net ci with
    | none => rfl
    | some cl => rfl

/-- Counterexample for C4: on a constructor-produced model with with_att
false, cal_cond_feat returns the prenet output directly, not the
composition through cond_att_net (which was never constructed). -/
theorem cal_cond_feat_att_counterexample :
    RADNeRF.cal_cond_feat mNoAttDemo [] ≠
      Option.map (fun att => att (mNoAttDemo.cond_prenet [])) mNoAttDemo.cond_att_net := by
  simp [RADNeRF.cal_cond_feat, mNoAttDemo, mkModel, hNoAtt, hEsp, defaultEnv]

/-- C4 amended: cal_cond_feat composes the attention smoother after the
prenet exactly when with_att holds; otherwise it returns the prenet output
unchanged. -/
theorem cal_cond_feat_att_amended (m : RADNeRF) (cond : Tsr3) :
    (m.with_att = true →
      RADNeRF.cal_cond_feat m cond =
        Option.map (fun att => att (m.cond_prenet cond)) m.cond_att_net) ∧
    (m.with_att = false →
      RADNeRF.cal_cond_feat m cond = some (m.cond_prenet cond)) := by
  constructor <;> intro hw <;> simp [RADNeRF.cal_cond_feat, hw]

/-- Witness for C4 amended at two constructor-produced models. -/
theorem cal_cond_feat_att_witness :
    RADNeRF.cal_cond_feat mDemo [] =
      Option.map (fun att => att (mDemo.cond_prenet [])) mDemo.cond_att_net ∧
    RADNeRF.cal_cond_feat mNoAttDemo [] = some (mNoAttDemo.cond_prenet []) :=
  ⟨(cal_cond_feat_att_amended mDemo []).1 rfl,
   (cal_cond_feat_att_amended mNoAttDemo []).2 rfl⟩

/-- Counterexample for C5: on an accepted hyperparameter set (esperanto,
with_att true) the constructor assembles seven learned sub-modules, not
five. -/
theorem five_submodules_counterexample :
    ((RADNeRF.init defaultEnv hEsp).map RADNeRF.modules).map List.length = some 7 ∧
      (7 : ℕ) ≠ 5 :=
  ⟨rfl, by decide⟩

/-- C5 amended: the constructor assembles exactly the learned sub-modules
AudioNet, AudioAttNet (when with_att holds), two grid encoders and three
MLPs — seven in total with the attention net, six without. -/
theorem modules_assembled (env : Env) (hp : Hparams) (m : RADNeRF)
    (hm : RADNeRF.init env hp = some m) :
    m.modules = [ModuleKind.audioNet] ++
      (if hp.with_att then [ModuleKind.audioAttNet] else []) ++
      [ModuleKind.gridEncoder, ModuleKind.mlp, ModuleKind.gridEncoder,
       ModuleKind.mlp, ModuleKind.mlp] ∧
    m.modules.length = (if hp.with_att then 7 else 6) ∧
    m.modules.count ModuleKind.audioNet = 1 ∧
    m.modules.count ModuleKind.audioAttNet = (if hp.with_att then 1 else 0) ∧
    m.modules.count ModuleKind.gridEncoder = 2 ∧
    m.modules.count ModuleKind.mlp = 3 := by
  obtain ⟨k, rfl⟩ := init_inv hm
  have hmod : (mkModel env hp k).modules = [ModuleKind.audioNet] ++
      (if hp.with_att then [ModuleKind.audioAttNet] else []) ++
      [ModuleKind.gridEncoder, ModuleKind.mlp, ModuleKind.gridEncoder,
       ModuleKind.mlp, ModuleKind.mlp] := rfl
  rw [hmod]
  cases hw : hp.with_att <;>
    exact ⟨rfl, by decide, by decide, by decide, by decide, by decide⟩

/-- Witness for C5 amended at a concrete environment and hyperparameters. -/
theorem modules_assembled_witness :
    mDemo.modules = [ModuleKind.audioNet] ++
      (if hEsp.with_att then [ModuleKind.audioAttNet] else []) ++
      [ModuleKind.gridEncoder, ModuleKind.mlp, ModuleKind.gridEncoder,
       ModuleKind.mlp, ModuleKind.mlp] ∧
    mDemo.modules.length = (if hEsp.with_att then 7 else 6) ∧
    mDemo.modules.count ModuleKind.audioNet = 1 ∧
    mDemo.modules.count ModuleKind.audioAttNet = (if hEsp.with_att then 1 else 0) ∧
    mDemo.modules.count ModuleKind.gridEncoder = 2 ∧
    mDemo.modules.count ModuleKind.mlp = 3 :=
  modules_assembled defaultEnv hEsp mDemo rfl

/-- C8: the constructor accepts exactly the three condition types,
setting cond_in_dim to 44, 29 and 204 respectively, and constructs no
model for any other value. -/
theorem init_cond_type_dispatch (env : Env) (hp : Hparams) :
    (hp.cond_type = "esperanto" →
      (RADNeRF.init env hp).map RADNeRF.cond_in_dim = some 44) ∧
    (hp.cond_type = "deepspeech" →
      (RADNeRF.init env hp).map RADNeRF.cond_in_dim = some 29) ∧
    (hp.cond_type = "idexp_lm3d_normalized" →
      (RADNeRF.init env hp).map RADNeRF.cond_in_dim = some 204) ∧
    (hp.cond_type ≠ "esperanto" → hp.cond_type ≠ "deepspeech" →
      hp.cond_type ≠ "idexp_lm3d_normalized" → RADNeRF.init env hp = none) := by
  refine ⟨?_, ?_, ?_, ?_⟩
  · intro h1
    unfold RADNeRF.init
    rw [if_pos h1]
    rfl
  · intro h1
    unfold RADNeRF.init
    rw [if_neg (by rw [h1]; decide), if_pos h1]
    rfl
  · intro h1
    unfold RADNeRF.init
    rw [if_neg (by rw [h1]; decide), if_neg (by rw [h1]; decide), if_pos h1]
    rfl
  · intro h1 h2 h3
    unfold RADNeRF.init
    rw [if_neg h1, if_neg h2, if_neg h3]
    rfl

/-- Witness for C8: esperanto is accepted with cond_in_dim 44, and an
unknown condition type constructs no model. -/
theorem init_cond_type_dispatch_witness :
    (RADNeRF.init defaultEnv hEsp).map RADNeRF.cond_in_dim = some 44 ∧
    RADNeRF.init defaultEnv hBadCond = none :=
  ⟨(init_cond_type_dispatch defaultEnv hEsp).1 rfl,
   (init_cond_type_dispatch defaultEnv hBadCond).2.2.2 (by decide) (by decide) (by decide)⟩

/-- C6: on a constructor-produced model, a [N, 3] position and a
[1, cond_dim] condition feature (with the documented [N, 3] direction and
[1, ind_dim] individual code), the condition feature is first repeated to
[N, cond_dim] and every concatenation and matrix operation in forward and
density has aligned shapes: neither computation reaches a shape error. -/
theorem shape_safety (env : Env) (hp : Hparams) (m : RADNeRF) (N : ℕ)
    (p d c : Tsr) (ic : Option Tsr) (hwf : EnvWF env)
    (hm : RADNeRF.init env hp = some m)
    (hp3 : Shaped p N 3) (hc : Shaped c 1 m.cond_out_dim) (hd : Shaped d N 3)
    (hics : ∀ code, ic = some code → Shaped code 1 m.individual_embedding_dim)
    (hicn : ic = none → m.individual_embedding_dim = 0) :
    Shaped (repeatRows c N) N m.cond_out_dim ∧
    (RADNeRF.forward m p d c ic).isSome = true ∧
    (RADNeRF.density m p c).isSome = true := by
  obtain ⟨k, rfl⟩ := init_inv hm
  have e1 : GridEncoder.WF (mkModel env hp k).position_embedder :=
    hwf.grid_wf _ _ _ _ _ _ _ _
  have e2 : (mkModel env hp k).position_embedder.inDim = 3 :=
    hwf.grid_in _ _ _ _ _ _ _ _
  have e3 : RowNet.WF (mkModel env hp k).ambient_net := hwf.mlp_wf _ _ _ _
  have e4 : (mkModel env hp k).ambient_net.inDim =
      (mkModel env hp k).position_embedder.outDim + hp.cond_out_dim := by
    simp only [mkModel]
    rw [hwf.mlp_in, hwf.grid_out]
  have e5 : GridEncoder.WF (mkModel env hp k).ambient_embedder :=
    hwf.grid_wf _ _ _ _ _ _ _ _
  have e6 : (mkModel env hp k).ambient_embedder.inDim =
      (mkModel env hp k).ambient_net.outDim := by
    simp only [mkModel]
    rw [hwf.grid_in, hwf.mlp_out]
  have e7 : RowNet.WF (mkModel env hp k).sigma_net := hwf.mlp_wf _ _ _ _
  have e8 : (mkModel env hp k).sigma_net.inDim =
      (mkModel env hp k).position_embedder.outDim +
        (mkModel env hp k).ambient_embedder.outDim := by
    simp only [mkModel]
    rw [hwf.mlp_in, hwf.grid_out, hwf.grid_out]
  obtain ⟨σ, g, ap, hdp, hσ, hg, hap⟩ :=
    densityParts_some_of_shaped e1 e2 e3 e4 e5 e6 e7 e8 hp3 hc
  have e9 : RowNet.WF (mkModel env hp k).direction_embedder := hwf.sh_wf
  have e10 : (mkModel env hp k).direction_embedder.inDim = 3 := hwf.sh_in
  have e11 : RowNet.WF (mkModel env hp k).color_net := hwf.mlp_wf _ _ _ _
  have hgdim : Shaped g N hp.geo_feat_dim := by
    have hout : (mkModel env hp k).sigma_net.outDim - 1 = hp.geo_feat_dim := by
      simp only [mkModel]
      rw [hwf.mlp_out]
      exact Nat.add_sub_cancel_left 1 hp.geo_feat_dim
    rwa [hout] at hg
  have hcs : (RADNeRF.colorStage (mkModel env hp k) d N ic g).isSome = true := by
    apply colorStage_some_of_shaped e9 e10 e11 hd hgdim
    cases ic with
    | none =>
      left
      refine ⟨rfl, ?_⟩
      have hind0 : env.baseIndDim hp = 0 := hicn rfl
      simp only [mkModel]
      rw [hwf.mlp_in, hwf.sh_out, hind0, Nat.add_zero]
    | some code =>
      right
      refine ⟨code, env.baseIndDim hp, rfl, hics code rfl, ?_⟩
      simp only [mkModel]
      rw [hwf.mlp_in, hwf.sh_out]
  refine ⟨?_, ?_, ?_⟩
  · have h := shaped_repeatRows hc.2 N
    rwa [hc.1, Nat.mul_one] at h
  · rw [forward_eq_factored, hdp]
    simp only [Option.pure_def, Option.bind_eq_bind, Option.some_bind']
    rw [Option.isSome_map']
    simpa [hp3.1] using hcs
  · rw [density_eq_densityParts, hdp]
    rfl

/-- Witness for C6 at a concrete constructor-produced model and shaped
inputs. -/
theorem shape_safety_witness :
    Shaped (repeatRows [[(0:ℝ)]] 1) 1 mDemo.cond_out_dim ∧
    (RADNeRF.forward mDemo [[(0:ℝ),0,0]] [[(0:ℝ),0,0]] [[(0:ℝ)]] none).isSome = true ∧
    (RADNeRF.density mDemo [[(0:ℝ),0,0]] [[(0:ℝ)]]).isSome = true :=
  shape_safety defaultEnv hEsp mDemo 1 [[0,0,0]] [[0,0,0]] [[0]] none defaultEnv_wf rfl
    ⟨rfl, by decide⟩ ⟨rfl, by decide⟩ ⟨rfl, by decide⟩
    (fun code h => Option.noConfusion h) (fun _ => rfl)
